import Mathlib

/-!
Verification of the document-list application core: a shallow embedding of
the Document Store (sorting, duplicate handling, subscriptions, persistence
effects), the Sort Engine, the Notification Mapper, the WebSocket channel
manager (retry state machine, inbound-frame handling) and the bootstrap
fetch handler, together with theorems settling the specification claims.

Sources embedded:
- store/store.ts           (Store: documents, documentMap, sort state, listeners)
- services/sortingService.ts  (SortingService.toggleSort)
- services/webSocketService.ts (connect/attemptReconnect/disconnect/onmessage)
- utils/documentUtils.ts   (DocumentMapper.fromSocketNotification)
- main.ts                  (initial-fetch resolution handler)
-/

/-! ## JavaScript primitive models

The store and comparator code uses a handful of JavaScript built-ins:
`String(x)`, `parseInt(s) || 0`, `Number(x)`, `Array.prototype.sort`,
string `includes`/`split`.  They are modelled here.  JavaScript numbers are
modelled as `Option ℚ`, with `none` standing for `NaN`; the version data of
this application only ever holds integers or decimal strings, so rationals
(exact decimals) are a faithful carrier for every value the code computes. -/

/-- A JavaScript number: `none` is `NaN`, `some q` a (finite) numeric value. -/
abbrev JSNum := Option ℚ

/-- JavaScript subtraction: `NaN` propagates through `-`. -/
def jsSub (a b : JSNum) : JSNum :=
  match a, b with
  | some x, some y => some (x - y)
  | _, _ => none

/-- Value of a list of decimal digit characters, most significant first. -/
def digitsVal (cs : List Char) : Nat :=
  cs.foldl (fun acc c => acc * 10 + (c.toNat - Char.toNat '0')) 0

/-- JavaScript whitespace test (the fragment relevant to version strings). -/
def isJsSpace (c : Char) : Bool :=
  c = ' ' || c = '\t' || c = '\n' || c = '\r'

/-- `parseInt(s) || 0` as used in `compareVersions`: skip leading whitespace,
optional sign, read the longest decimal-digit prefix; when `parseInt` would
yield `NaN` (no digits) the `|| 0` fallback gives `0` (and `-0 || 0` is `0`,
matching `Int`). -/
def jsParseIntOr0Chars (cs0 : List Char) : Int :=
  let cs := cs0.dropWhile isJsSpace
  match cs with
  | '-' :: rest =>
      let ds := rest.takeWhile Char.isDigit
      if ds.isEmpty then 0 else -(digitsVal ds : Int)
  | '+' :: rest =>
      let ds := rest.takeWhile Char.isDigit
      if ds.isEmpty then 0 else (digitsVal ds : Int)
  | rest =>
      let ds := rest.takeWhile Char.isDigit
      if ds.isEmpty then 0 else (digitsVal ds : Int)

/-- `parseInt(s) || 0` on a string. -/
def jsParseIntOr0 (s : String) : Int :=
  jsParseIntOr0Chars s.data

/-- Parse an unsigned decimal literal (`digits`, `digits.digits`, `.digits`,
`digits.`) to a rational; anything else is `NaN` (`none`). -/
def parseDecimal (cs : List Char) : Option ℚ :=
  let ip := cs.takeWhile Char.isDigit
  let rest := cs.dropWhile Char.isDigit
  match rest with
  | [] => if ip.isEmpty then none else some (digitsVal ip : ℚ)
  | '.' :: frac =>
      let fp := frac.takeWhile Char.isDigit
      let rest2 := frac.dropWhile Char.isDigit
      if rest2.isEmpty && !(ip.isEmpty && fp.isEmpty) then
        some ((digitsVal ip : ℚ) + (digitsVal fp : ℚ) / ((10 : ℚ) ^ fp.length))
      else none
  | _ => none

/-- `Number(s)` for a string, on the grammar version strings inhabit:
trimmed sign + decimal literal; the empty/blank string is `0`; any other
shape (in particular a dotted triple such as `"1.0.0"`) is `NaN`.
Exponent/hex/infinity literals never occur as version data and are mapped
to `NaN` here. -/
def jsNumberOfString (s : String) : JSNum :=
  let t := s.data.dropWhile isJsSpace |>.reverse.dropWhile isJsSpace |>.reverse
  if t.isEmpty then some 0
  else
    match t with
    | '-' :: rest => (parseDecimal rest).map Neg.neg
    | '+' :: rest => parseDecimal rest
    | cs => parseDecimal cs

/-! ## Domain model (models/document.ts) -/

/-- `SortField = 'Title' | 'Version' | 'CreatedAt'` -/
inductive SortField
  | Title
  | Version
  | CreatedAt
deriving DecidableEq, Repr

/-- `SortOrder = 'asc' | 'desc'` -/
inductive SortOrder
  | asc
  | desc
deriving DecidableEq, Repr

/-- `ViewMode = 'list' | 'grid'` -/
inductive ViewMode
  | list
  | grid
deriving DecidableEq, Repr

/-- `Version: number | string`.  Per the data model the numeric alternative
is an integer (all numeric versions the application constructs are). -/
inductive VersionVal
  | num (n : Int)
  | str (s : String)
deriving DecidableEq, Repr

/-- `String(v)` for a version value: integers print as in JavaScript. -/
def VersionVal.toJSString : VersionVal → String
  | .num n => toString n
  | .str s => s

/-- `Number(v)` for a version value. -/
def VersionVal.toJSNumber : VersionVal → JSNum
  | .num n => some (n : ℚ)
  | .str s => jsNumberOfString s

/-- `Contributors` interface. -/
structure Contributors where
  ID : String
  Name : String
deriving DecidableEq, Repr

/-- The `Document` interface.  `CreatedAt`/`UpdatedAt` hold the instant in
epoch milliseconds, i.e. the value `Date.prototype.getTime` returns (the
only way the store code observes a date). -/
structure Document where
  ID : String
  Title : String
  Contributors : List Contributors
  Version : VersionVal
  Attachments : List String
  CreatedAt : Int
  UpdatedAt : Int
deriving DecidableEq, Repr

/-! ## Store.compareVersions (store/store.ts) -/

/-- `String.prototype.split(sep)` on the character sequence: cut at every
separator, keeping empty pieces (so `""` gives `[""]` and `"1."` split at
`'.'` gives `["1", ""]`, as in JavaScript). -/
def splitOnChar (sep : Char) : List Char → List (List Char)
  | [] => [[]]
  | c :: cs =>
      if c = sep then [] :: splitOnChar sep cs
      else
        match splitOnChar sep cs with
        | g :: gs => (c :: g) :: gs
        | [] => [[c]]

/-- `split('.')`. -/
def splitDot (cs : List Char) : List (List Char) :=
  splitOnChar '.' cs

/-- `s.includes('.')`. -/
def hasDot (s : String) : Bool :=
  s.data.contains '.'

/-- Components of a version string: `split('.')` then `parseInt(n) || 0`
on each component, exactly as `compareVersions` maps the parts. -/
def verParts (s : String) : List Int :=
  (splitDot s.data).map jsParseIntOr0Chars

/-- Tail of the component loop once the first component list is
exhausted: the remaining differences read `(0) - (bParts[i] || 0)`. -/
def firstDiffNil : List Int → Int
  | [] => 0
  | b :: ys => if -b ≠ 0 then -b else firstDiffNil ys

/-- The component loop of `compareVersions`: for each index up to the
longer length, `(aParts[i] || 0) - (bParts[i] || 0)` — an out-of-range
component reads `0` — returning the first nonzero difference, else `0`. -/
def firstDiff : List Int → List Int → Int
  | [], ys => firstDiffNil ys
  | a :: xs, [] => if a ≠ 0 then a else firstDiff xs []
  | a :: xs, b :: ys => if a - b ≠ 0 then a - b else firstDiff xs ys

/-- `Store.compareVersions(a, b)`: when both string representations
contain a `'.'`, the dotted components are compared left to right;
otherwise fall back to `Number(a) - Number(b)`. -/
def compareVersions (a b : VersionVal) : JSNum :=
  let aStr := a.toJSString
  let bStr := b.toJSString
  if hasDot aStr && hasDot bStr then
    some ((firstDiff (verParts aStr) (verParts bStr) : Int) : ℚ)
  else
    jsSub a.toJSNumber b.toJSNumber

/-! ## Store sorting (store/store.ts) -/

/-- `a.Title.localeCompare(b.Title)` modelled as code-point string
comparison (locale refinements are outside this model's scope; every title
the claims touch is plain ASCII where the two coincide). -/
def localeCompare (a b : String) : Int :=
  if a < b then -1 else if b < a then 1 else 0

/-- The comparator body of `sortDocuments`, before the order sign. -/
def baseComparison (f : SortField) (a b : Document) : JSNum :=
  match f with
  | .Title => some ((localeCompare a.Title b.Title : Int) : ℚ)
  | .Version => compareVersions a.Version b.Version
  | .CreatedAt => some ((a.CreatedAt - b.CreatedAt : Int) : ℚ)

/-- `return this.sortOrder === 'asc' ? comparison : -comparison;` -/
def effComparison (f : SortField) (o : SortOrder) (a b : Document) : JSNum :=
  match o with
  | .asc => baseComparison f a b
  | .desc => (baseComparison f a b).map Neg.neg

/-- "`a` must come strictly before `b`" decision a sort makes from a
comparator result; a `NaN` result is treated like `0` (leave order). -/
def cmpLt (c : JSNum) : Bool :=
  match c with
  | some q => decide (q < 0)
  | none => false

/-- Stable insertion of `x`, which originally precedes every element of
the list, into an already-sorted list: move past `y` only while `y`
strictly precedes `x`, so ties keep their original order. -/
def sortInsert {α : Type} (lt : α → α → Bool) (x : α) : List α → List α
  | [] => [x]
  | y :: ys => if lt y x then y :: sortInsert lt x ys else x :: y :: ys

/-- Stable comparison sort (insertion sort).  `Array.prototype.sort` is
required to be stable, and on a consistent comparator any stable sort
produces this unique output. -/
def insertionSortBy {α : Type} (lt : α → α → Bool) : List α → List α
  | [] => []
  | x :: xs => sortInsert lt x (insertionSortBy lt xs)

/-- `Store.sortDocuments` under sort state `(f, o)` (the in-place `.sort`
applied to the spread copy `[...this.documents]`). -/
def sortDocuments (f : SortField) (o : SortOrder) (docs : List Document) : List Document :=
  insertionSortBy (fun a b => cmpLt (effComparison f o a b)) docs

/-! ## SortingService.toggleSort (services/sortingService.ts) -/

/-- `SortResult` interface. -/
structure SortResult where
  field : SortField
  order : SortOrder
deriving DecidableEq, Repr

/-- `SortingService.toggleSort(currentField, currentOrder, newField)`. -/
def toggleSort (currentField : SortField) (currentOrder : SortOrder)
    (newField : SortField) : SortResult :=
  if newField = currentField then
    { field := currentField
      order := if currentOrder = .asc then .desc else .asc }
  else
    { field := newField, order := .asc }

/-! ## Store state and operations (store/store.ts)

State-passing embedding of the `Store` class.  Each mutating operation
returns the new state together with the list of externally observable
effects it performed, in the order the code performs them.  Listeners are
identified by `Nat` tokens; the JS `Set<Listener>` iterates in insertion
order, modelled as a duplicate-free list in subscription order. -/

/-- An externally observable effect of a store operation. -/
inductive Effect
  | warned (msg : String)
  | saved (docs : List Document)
  | notified (listener : Nat)
deriving DecidableEq, Repr

/-- The instance fields of `Store`.  `documentMap` is the key set of the
`Map<string, boolean>` the class declares with initializer `new Map()`:
it records exactly the IDs that `addDocument` has inserted. -/
structure StoreState where
  documents : List Document
  listeners : List Nat
  sortField : SortField
  sortOrder : SortOrder
  viewMode : ViewMode
  documentMap : List String
deriving DecidableEq, Repr

/-- The private constructor: field initializers run first (empty documents,
empty listener set, `'CreatedAt'`/`'desc'`/`'list'`, empty `documentMap`),
then the constructor body assigns `this.documents = loadDocuments()`.
Nothing seeds `documentMap` from the loaded documents. -/
def storeInit (loaded : List Document) : StoreState :=
  { documents := loaded
    listeners := []
    sortField := .CreatedAt
    sortOrder := .desc
    viewMode := .list
    documentMap := [] }

/-- `this.listeners.forEach(listener => listener())`: one invocation per
currently subscribed listener, in insertion order. -/
def notifyEffects (st : StoreState) : List Effect :=
  st.listeners.map Effect.notified

/-- `subscribe(listener)`: `Set.add` — a no-op when the listener is already
present, otherwise appended in insertion order. -/
def subscribe (st : StoreState) (l : Nat) : StoreState :=
  if l ∈ st.listeners then st
  else { st with listeners := st.listeners ++ [l] }

/-- The deregistration closure `() => this.listeners.delete(listener)`
returned by `subscribe`. -/
def unsubscribe (l : Nat) (st : StoreState) : StoreState :=
  { st with listeners := st.listeners.erase l }

/-- `getDocuments()`: `this.sortDocuments([...this.documents])` — the
spread copies the array, so the stored array and its order are untouched;
the copy is sorted and returned. -/
def getDocuments (st : StoreState) : List Document :=
  sortDocuments st.sortField st.sortOrder st.documents

/-- `addDocument(document)`: duplicate check against `documentMap`; on a
hit, warn and return; otherwise push to both collections, persist the full
collection (`saveDocuments`), then notify. -/
def addDocument (st : StoreState) (doc : Document) : StoreState × List Effect :=
  if st.documentMap.contains doc.ID then
    (st, [.warned ("Document with ID " ++ doc.ID ++ " already exists")])
  else
    let docs := st.documents ++ [doc]
    let st2 := { st with documents := docs, documentMap := st.documentMap ++ [doc.ID] }
    (st2, .saved docs :: notifyEffects st2)

/-- `setSortField(field)`: unconditional write, then notify. -/
def setSortField (st : StoreState) (f : SortField) : StoreState × List Effect :=
  let st2 := { st with sortField := f }
  (st2, notifyEffects st2)

/-- `setSortOrder(order)`: unconditional write, then notify. -/
def setSortOrder (st : StoreState) (o : SortOrder) : StoreState × List Effect :=
  let st2 := { st with sortOrder := o }
  (st2, notifyEffects st2)

/-- `setViewMode(mode)`: unconditional write, then notify. -/
def setViewMode (st : StoreState) (m : ViewMode) : StoreState × List Effect :=
  let st2 := { st with viewMode := m }
  (st2, notifyEffects st2)

/-- One of the three always-notify mutating calls. -/
inductive MutCmd
  | field (f : SortField)
  | order (o : SortOrder)
  | mode (m : ViewMode)
deriving DecidableEq, Repr

/-- Dispatch a mutating call. -/
def applyMut (st : StoreState) (c : MutCmd) : StoreState × List Effect :=
  match c with
  | .field f => setSortField st f
  | .order o => setSortOrder st o
  | .mode m => setViewMode st m

/-- Run a sequence of mutating calls, collecting one notification batch
per call. -/
def runMuts (st : StoreState) : List MutCmd → StoreState × List (List Effect)
  | [] => (st, [])
  | c :: cs =>
      ((runMuts (applyMut st c).1 cs).1,
        (applyMut st c).2 :: (runMuts (applyMut st c).1 cs).2)

/-! ## Shared-reference model of `getDocuments` aliasing

`[...this.documents]` copies the array but not the `Document` objects: the
returned array holds references to the store's own elements.  To state
aliasing claims, documents are addressed through an explicit heap:
`Heap.cells` maps a reference (its index) to the current object state, the
store keeps a list of references, and `getDocumentsRefs` returns the
freshly sorted copy of that reference list. -/

namespace Alias

/-- A reference to a `Document` object on the heap. -/
abbrev Ref := Nat

/-- The object heap: `cells[r]` is the current state of object `r`. -/
structure Heap where
  cells : List Document
deriving DecidableEq, Repr

/-- Placeholder an out-of-range dereference yields; never reached in the
concrete instances used below. -/
def defaultDoc : Document :=
  { ID := "", Title := "", Contributors := [], Version := .num 0
    Attachments := [], CreatedAt := 0, UpdatedAt := 0 }

/-- Read the object a reference designates. -/
def deref (h : Heap) (r : Ref) : Document :=
  h.cells.getD r defaultDoc

/-- Field assignment `doc.Title = t` through a reference: a heap update. -/
def writeTitle (h : Heap) (r : Ref) (t : String) : Heap :=
  ⟨h.cells.set r { h.cells.getD r defaultDoc with Title := t }⟩

/-- The reference-level store state relevant to `getDocuments`. -/
structure RState where
  docRefs : List Ref
  sortField : SortField
  sortOrder : SortOrder
deriving DecidableEq, Repr

/-- `getDocuments()` at the reference level: sort a copy of the reference
array with the comparator reading the heap; the store state is returned
unchanged (only the copy was sorted in place). -/
def getDocumentsRefs (h : Heap) (s : RState) : List Ref × RState :=
  (insertionSortBy
      (fun a b => cmpLt (effComparison s.sortField s.sortOrder (deref h a) (deref h b)))
      s.docRefs,
    s)

/-- The sequence of document values a caller of `getDocuments()` observes. -/
def observe (h : Heap) (s : RState) : List Document :=
  (getDocumentsRefs h s).1.map (deref h)

end Alias

/-! ## Notification mapper (utils/documentUtils.ts) -/

/-- The inbound realtime payload shape (models/sockets.ts). -/
structure SocketsNotification where
  Timestamp : String
  UserID : String
  UserName : String
  DocumentID : String
  DocumentTitle : String
deriving DecidableEq, Repr

/-- Days since 1970-01-01 of a proleptic-Gregorian civil date
(the standard era-based algorithm, with C-style truncating division). -/
def daysFromCivil (y m d : Int) : Int :=
  let yy := if m ≤ 2 then y - 1 else y
  let era := (if 0 ≤ yy then yy else yy - 399).tdiv 400
  let yoe := yy - era * 400
  let mp := (m + 9) % 12
  let doy := (153 * mp + 2).tdiv 5 + d - 1
  let doe := yoe * 365 + yoe.tdiv 4 - yoe.tdiv 100 + doy
  era * 146097 + doe - 719468

/-- All-digit string to `Nat`, or `none`. -/
def decDigits (s : String) : Option Nat :=
  if s.length ≠ 0 && s.data.all Char.isDigit then some (digitsVal s.data) else none

/-- Epoch milliseconds of a `HH:MM:SS(.mmm)?` time-of-day string. -/
def timeOfDayMs (t : String) : Option Int :=
  match t.splitOn ":" with
  | [hh, mm, rest] =>
      match hh.length == 2, decDigits hh, mm.length == 2, decDigits mm with
      | true, some h, true, some m =>
          let (secStr, msVal) :=
            match rest.splitOn "." with
            | [s0] => (s0, some 0)
            | [s0, ms] => (s0, (decDigits ms).map (fun v => v * 10 ^ (3 - ms.length)))
            | _ => ("", none)
          match secStr.length == 2, decDigits secStr, msVal with
          | true, some s0, some ms =>
              some (((h * 3600 + m * 60 + s0) * 1000 + ms : Nat) : Int)
          | _, _, _ => none
      | _, _, _, _ => none
  | _ => none

/-- `new Date(iso).getTime()` on the UTC ISO-8601 shapes the realtime
channel and persistence layer carry (`YYYY-MM-DD` or
`YYYY-MM-DDTHH:MM:SS(.mmm)?Z`); other strings give an invalid date, which
this model collapses to instant `0` (no claim depends on that case). -/
def parseDateMs (s : String) : Int :=
  let core := if s.endsWith "Z" then s.dropRight 1 else s
  match core.splitOn "T" with
  | [d] =>
      (match d.splitOn "-" with
        | [y, m, dd] =>
            (match decDigits y, decDigits m, decDigits dd with
              | some yv, some mv, some dv =>
                  daysFromCivil (yv : Int) (mv : Int) (dv : Int) * 86400000
              | _, _, _ => 0)
        | _ => 0)
  | [d, t] =>
      (match d.splitOn "-" with
        | [y, m, dd] =>
            (match decDigits y, decDigits m, decDigits dd, timeOfDayMs t with
              | some yv, some mv, some dv, some ms =>
                  daysFromCivil (yv : Int) (mv : Int) (dv : Int) * 86400000 + ms
              | _, _, _, _ => 0)
        | _ => 0)
  | _ => 0

/-- `DocumentMapper.fromSocketNotification(notification)`. -/
def fromSocketNotification (n : SocketsNotification) : Document :=
  { ID := n.DocumentID
    Title := n.DocumentTitle
    Contributors := [{ ID := n.UserID, Name := n.UserName }]
    Version := .num 1
    Attachments := []
    CreatedAt := parseDateMs n.Timestamp
    UpdatedAt := parseDateMs n.Timestamp }

/-! ## Bootstrap fetch handler (main.ts) -/

/-- The `.then(documents => ...)` resolution handler of the initial bulk
fetch: documents are added (one `store.addDocument(doc)` per record, in
order) only when `store.getDocuments().length === 0`. -/
def onFetchResolved (st : StoreState) (docs : List Document) : StoreState × List Effect :=
  if (getDocuments st).length = 0 then
    docs.foldl
      (fun acc d => ((addDocument acc.1 d).1, acc.2 ++ (addDocument acc.1 d).2))
      (st, [])
  else
    (st, [])

/-! ## WebSocket channel manager (services/webSocketService.ts)

Operational model of `WebSocketService` together with the platform
behavior its temporal claims depend on:

* `setTimeout`/`clearTimeout`: at most one reconnect timer handle is
  stored in `reconnectTimeout`; `clearTimeout` prevents the cleared
  callback from ever running (`timerFire` on a cleared slot is a no-op).
* The WebSocket lifecycle (WHATWG): a socket in state CONNECTING or OPEN
  on which `close()` is called completes its closing handshake
  asynchronously and then fires a `close` event at the socket object;
  `close()` on an already-CLOSED socket does nothing.  Event handlers
  assigned to a socket stay attached to that socket even after the service
  drops its `this.ws` reference, so such an owed `close` dispatch still
  runs the service's `onclose` body (`attemptReconnect`).  `owedClose`
  counts these queued dispatches.

The model state carries the service fields `reconnectAttempts` and
`reconnectTimeout` (as the pending delay), the `readyState` of the socket
`this.ws` holds, and the owed close dispatches. -/

namespace WS

/-- `readyState` of the referenced socket. -/
inductive SockState
  | connecting
  | opened
  | closed
deriving DecidableEq, Repr

/-- Service + platform state. -/
structure Svc where
  ws : Option SockState
  reconnectAttempts : Nat
  timer : Option Nat
  owedClose : Nat
deriving DecidableEq, Repr

/-- `maxReconnectAttempts = 5`. -/
def maxReconnectAttempts : Nat := 5

/-- `reconnectDelay = 3000`. -/
def reconnectDelay : Nat := 3000

/-- Construction: `ws = null`, counters zero, no timer. -/
def svcInit : Svc :=
  { ws := none, reconnectAttempts := 0, timer := none, owedClose := 0 }

/-- Observable actions of a step. -/
inductive Act
  | connAttempt
  | scheduledForward (n : SocketsNotification)
  | loggedParseError
deriving DecidableEq, Repr

/-- `attemptReconnect()`: below the budget, increment the counter and
store a fresh 3000 ms timer; at the budget, log and do nothing. -/
def attemptReconnect (s : Svc) : Svc :=
  if s.reconnectAttempts < maxReconnectAttempts then
    { s with reconnectAttempts := s.reconnectAttempts + 1, timer := some reconnectDelay }
  else s

/-- `connect()`: `this.ws = new WebSocket(wsUrl)` plus handler wiring —
the new socket starts CONNECTING and the creation is the observable
connection attempt. -/
def connectFn (s : Svc) : Svc :=
  { s with ws := some .connecting }

/-- Events that can reach the service: the two public calls, and the
platform-delivered socket/timer callbacks. -/
inductive Ev
  | userConnect
  | userDisconnect
  | sockOpen
  | sockClose
  | closeDispatch
  | timerFire
deriving DecidableEq, Repr

/-- Automatic events: socket callbacks and timers, i.e. everything that
can happen through the passage of time without an explicit API call
(excluding `sockOpen`, a successful handshake). -/
def Ev.isAuto : Ev → Bool
  | .sockClose => true
  | .closeDispatch => true
  | .timerFire => true
  | _ => false

/-- One event step. -/
def step (s : Svc) : Ev → Svc × List Act
  | .userConnect => (connectFn s, [.connAttempt])
  | .userDisconnect =>
      -- clearTimeout(reconnectTimeout); ws.close(); ws = null; attempts = 0
      let owed :=
        match s.ws with
        | some .connecting => s.owedClose + 1
        | some .opened => s.owedClose + 1
        | _ => s.owedClose
      ({ ws := none, reconnectAttempts := 0, timer := none, owedClose := owed }, [])
  | .sockOpen =>
      -- onopen: reset the retry counter (only a CONNECTING socket opens)
      match s.ws with
      | some .connecting => ({ s with ws := some .opened, reconnectAttempts := 0 }, [])
      | _ => (s, [])
  | .sockClose =>
      -- onclose on the live socket: it is now CLOSED; attemptReconnect()
      match s.ws with
      | some .connecting => (attemptReconnect { s with ws := some .closed }, [])
      | some .opened => (attemptReconnect { s with ws := some .closed }, [])
      | _ => (s, [])
  | .closeDispatch =>
      -- an owed close event of a socket the service released fires;
      -- its onclose body still runs attemptReconnect()
      if s.owedClose = 0 then (s, [])
      else (attemptReconnect { s with owedClose := s.owedClose - 1 }, [])
  | .timerFire =>
      -- the stored reconnect timer expires: () => this.connect()
      match s.timer with
      | some _ => (connectFn { s with timer := none }, [.connAttempt])
      | none => (s, [])

/-- Run a sequence of events, concatenating the actions. -/
def run (s : Svc) : List Ev → Svc × List Act
  | [] => (s, [])
  | e :: es =>
      ((run (step s e).1 es).1, (step s e).2 ++ (run (step s e).1 es).2)

/-- Number of connection attempts in an action list. -/
def countConn (acts : List Act) : Nat :=
  (acts.filter (fun a => a = .connAttempt)).length

/-- The state right after a fresh `connect()` call on a fresh service. -/
def freshConnected : Svc :=
  { ws := some .connecting, reconnectAttempts := 0, timer := none, owedClose := 0 }

/-- The abandoned state: budget exhausted, everything quiescent. -/
def exhausted : Svc :=
  { ws := some .closed, reconnectAttempts := 5, timer := none, owedClose := 0 }

/-! ### Inbound message handling -/

/-- `JSON.parse(event.data)` against the `SocketsNotification` shape,
modelled on a fixed five-field frame encoding: the handler under
verification treats the decoder as a black box that either yields a
notification or throws, which is all the claims depend on. -/
def decodeFrame (s : String) : Option SocketsNotification :=
  match (splitOnChar '|' s.data).map String.mk with
  | [ts, uid, un, did, dt] => some ⟨ts, uid, un, did, dt⟩
  | _ => none

/-- The `onmessage` handler body: parse; on success defer the forward with
`setTimeout(() => this.onDocumentReceived(notification), 0)`; on failure
catch and log.  Neither branch touches any service field. -/
def onMessage (s : Svc) (frameData : String) : Svc × List Act :=
  match decodeFrame frameData with
  | some n => (s, [.scheduledForward n])
  | none => (s, [.loggedParseError])

/-- Deliver a sequence of frames in arrival order. -/
def onMessages (s : Svc) : List String → Svc × List Act
  | [] => (s, [])
  | f :: fs =>
      ((onMessages (onMessage s f).1 fs).1,
        (onMessage s f).2 ++ (onMessages (onMessage s f).1 fs).2)

/-- The notifications an action list forwards, in order (zero-delay
`setTimeout` tasks execute in FIFO scheduling order). -/
def forwardsOf (acts : List Act) : List SocketsNotification :=
  acts.filterMap (fun a =>
    match a with
    | .scheduledForward n => some n
    | _ => none)

end WS

/-! ## Helper lemmas -/

theorem sortInsert_perm {α : Type} (lt : α → α → Bool) (x : α) (l : List α) :
    (sortInsert lt x l).Perm (x :: l) := by
  induction l with
  | nil => exact List.Perm.refl _
  | cons y ys ih =>
      simp only [sortInsert]
      split
      · exact (ih.cons y).trans (List.Perm.swap x y ys)
      · exact List.Perm.refl _

theorem insertionSortBy_perm {α : Type} (lt : α → α → Bool) (l : List α) :
    (insertionSortBy lt l).Perm l := by
  induction l with
  | nil => exact List.Perm.refl _
  | cons x xs ih =>
      exact (sortInsert_perm lt x _).trans (ih.cons x)

theorem sortDocuments_perm (f : SortField) (o : SortOrder) (docs : List Document) :
    (sortDocuments f o docs).Perm docs :=
  insertionSortBy_perm _ _

theorem getDocuments_length (st : StoreState) :
    (getDocuments st).length = st.documents.length :=
  (sortDocuments_perm _ _ _).length_eq

/-! ## C6 — Sort Engine toggle policy -/

/-- C6: `toggleSort(f, o, f)` keeps the field and flips the order
(`asc` becomes `desc` and `desc` becomes `asc`); for any `g ≠ f`,
`toggleSort(f, o, g)` is `{g, asc}` whatever `o` was.  (Purity is
inherent: `toggleSort` is a function of its three arguments alone.) -/
theorem c6_toggleSort :
    (∀ f : SortField, toggleSort f .asc f = ⟨f, .desc⟩)
  ∧ (∀ f : SortField, toggleSort f .desc f = ⟨f, .asc⟩)
  ∧ (∀ (f : SortField) (o : SortOrder) (g : SortField),
      g ≠ f → toggleSort f o g = ⟨g, .asc⟩) := by
  refine ⟨fun f => ?_, fun f => ?_, fun f o g hg => ?_⟩
  · simp [toggleSort]
  · simp [toggleSort]
  · simp [toggleSort, hg]

/-- Witness for C6 at concrete fields and orders. -/
theorem c6_toggleSort_witness :
    SortField.Version ≠ SortField.Title
  ∧ toggleSort .Title .desc .Version = ⟨.Version, .asc⟩ :=
  ⟨by decide, c6_toggleSort.2.2 .Title .desc .Version (by decide)⟩

/-! ## C9 — Notification Mapper -/

/-- C9: the mapper produces a `Document` with `ID = n.DocumentID`,
`Title = n.DocumentTitle`, exactly the one contributor
`{ID: n.UserID, Name: n.UserName}`, `Version = 1`, empty `Attachments`,
and `CreatedAt = UpdatedAt =` the parsed `n.Timestamp`; the transform is a
pure function of `n`. -/
theorem c9_fromSocketNotification (n : SocketsNotification) :
    (fromSocketNotification n).ID = n.DocumentID
  ∧ (fromSocketNotification n).Title = n.DocumentTitle
  ∧ (fromSocketNotification n).Contributors = [{ ID := n.UserID, Name := n.UserName }]
  ∧ (fromSocketNotification n).Version = .num 1
  ∧ (fromSocketNotification n).Attachments = []
  ∧ (fromSocketNotification n).CreatedAt = parseDateMs n.Timestamp
  ∧ (fromSocketNotification n).UpdatedAt = (fromSocketNotification n).CreatedAt :=
  ⟨rfl, rfl, rfl, rfl, rfl, rfl, rfl⟩

/-! ## C1 — duplicate handling in `addDocument`

The duplicate check consults `documentMap`, but the constructor populates
`documents` from `loadDocuments()` without seeding `documentMap`, so a
document whose ID duplicates a *hydrated* document passes the check: it is
appended, persisted and broadcast.  The repository's own test
(`store.test.ts`, "should prevent duplicate documents") loads the store
through `loadDocuments` and expects the re-add of a loaded document to
warn and change nothing — the code fails that expectation. -/

/-- A document hydrated from persistence at construction time. -/
def c1Hydrated : Document :=
  { ID := "doc-1", Title := "Alpha", Contributors := [], Version := .num 1
    Attachments := [], CreatedAt := 0, UpdatedAt := 0 }

/-- A later arrival carrying the same ID. -/
def c1Duplicate : Document :=
  { c1Hydrated with Title := "Imposter" }

/-- The store as constructed over a persisted snapshot, with one
subscriber. -/
def c1Store : StoreState :=
  subscribe (storeInit [c1Hydrated]) 0

/-- C1 (code bug evidence): adding a document whose ID equals the ID of a
document already hydrated into the collection is *not* a no-op — the
collection grows to length 2, the enlarged collection is persisted, the
subscriber is notified, and no diagnostic is emitted. -/
theorem c1_hydrated_duplicate_added :
    ((addDocument c1Store c1Duplicate).1).documents.length = 2
  ∧ (addDocument c1Store c1Duplicate).2 =
      [Effect.saved [c1Hydrated, c1Duplicate], Effect.notified 0] := by
  decide

/-! ## C2 — `getDocuments` freshness and aliasing

`[...this.documents]` gives a fresh array, so the stored collection and
its order are untouched and mutating the returned *array* cannot reach the
store.  The copy is shallow, however: the array's *elements* are the
store's own `Document` objects, so mutating a returned element is visible
to every later `getDocuments()` call. -/

/-- The single stored document of the aliasing counterexample. -/
def c2Doc : Document :=
  { ID := "doc-1", Title := "Alpha", Contributors := [], Version := .num 1
    Attachments := [], CreatedAt := 0, UpdatedAt := 0 }

/-- Heap holding that one object. -/
def c2Heap : Alias.Heap := ⟨[c2Doc]⟩

/-- Store referencing the object, sorted by title ascending. -/
def c2State : Alias.RState := ⟨[0], .Title, .asc⟩

/-- C2 counterexample: `getDocuments()` hands back reference `0` — the
store's own element.  Assigning `Title` through that returned reference
changes what the *next* `getDocuments()` call observes (from `"Alpha"` to
`"Mutated"`), so mutating an element of a previously returned sequence
does affect a later call, contradicting the claim as stated. -/
theorem c2_element_alias_counterexample :
    (Alias.getDocumentsRefs c2Heap c2State).1 = [0]
  ∧ (Alias.observe c2Heap c2State).map Document.Title = ["Alpha"]
  ∧ (Alias.observe (Alias.writeTitle c2Heap 0 "Mutated") c2State).map Document.Title
      = ["Mutated"] := by
  decide

/-- C2 amended: `getDocuments()` leaves the store state — the stored
reference array, its order, and the sort/view fields — completely
unchanged, and returns a *fresh* array (a permutation of the stored
references, built by sorting a copy), so mutating the returned array
itself never influences a later call; the elements, however, are the
stored objects themselves (shallow copy), as the counterexample shows. -/
theorem c2_getDocuments_fresh_array (h : Alias.Heap) (s : Alias.RState) :
    (Alias.getDocumentsRefs h s).2 = s
  ∧ ((Alias.getDocumentsRefs h s).1).Perm s.docRefs
  ∧ Alias.getDocumentsRefs h ((Alias.getDocumentsRefs h s).2)
      = Alias.getDocumentsRefs h s :=
  ⟨rfl, insertionSortBy_perm _ _, rfl⟩

/-! ## C3 — `disconnect()` and late reconnection

`disconnect()` does clear the stored timer, close the socket and zero the
counter — but it leaves `onclose` attached to the socket it closes.  The
platform completes the closing handshake of a socket that was OPEN (or
CONNECTING) *after* `disconnect()` returns and fires `close` at it; that
handler calls `attemptReconnect()`, which (counter freshly reset to 0)
schedules `connect()` 3000 ms later: advancing time after `disconnect()`
does produce a late connection attempt. -/

/-- C3 (code bug evidence): from a fresh service, `connect()` succeeds
(`open` fires), then `disconnect()` runs — afterwards the service holds no
socket, no timer and a zero counter, but one close dispatch is still owed
to the socket just closed.  Letting that dispatch and the timer it
schedules run — pure passage of time, no further API call — produces
exactly one new connection attempt. -/
theorem c3_late_reconnect_after_disconnect :
    (WS.run WS.svcInit [.userConnect, .sockOpen, .userDisconnect]).1
      = { ws := none, reconnectAttempts := 0, timer := none, owedClose := 1 }
  ∧ WS.countConn
      ((WS.run { ws := none, reconnectAttempts := 0, timer := none, owedClose := 1 }
        [.closeDispatch, .timerFire]).2) = 1 := by
  decide

/-! ## C5 — version comparator -/

/-- Characterization of "compare component-by-component left to right,
treating missing trailing components as 0, returning the first nonzero
difference": either every component up to the longer length agrees and
`d = 0`, or `d` is the (nonzero) difference at the first disagreeing
index. -/
def isFirstNonzeroDiff (xs ys : List Int) (d : Int) : Prop :=
  (d = 0 ∧ ∀ i < max xs.length ys.length, xs.getD i 0 = ys.getD i 0)
  ∨ (d ≠ 0 ∧ ∃ i, i < max xs.length ys.length
      ∧ d = xs.getD i 0 - ys.getD i 0
      ∧ ∀ j < i, xs.getD j 0 = ys.getD j 0)

theorem isFND_cons (a b : Int) (xs ys : List Int) (d : Int)
    (hrec : isFirstNonzeroDiff xs ys d) :
    isFirstNonzeroDiff (a :: xs) (b :: ys) (if a - b ≠ 0 then a - b else d) := by
  rcases eq_or_ne (a - b) 0 with hab | hab
  · rw [if_neg (by simp [hab])]
    rcases hrec with ⟨hd0, hall⟩ | ⟨hne, i, hi, hdi, hprev⟩
    · refine Or.inl ⟨hd0, fun i hi => ?_⟩
      cases i with
      | zero => simpa using (show a = b by omega)
      | succ j =>
          simp only [List.getD_cons_succ]
          refine hall j ?_
          simp only [List.length_cons] at hi
          omega
    · refine Or.inr ⟨hne, i + 1, ?_, by simpa using hdi, fun j hj => ?_⟩
      · simp only [List.length_cons]
        omega
      · cases j with
        | zero => simpa using (show a = b by omega)
        | succ k =>
            simp only [List.getD_cons_succ]
            exact hprev k (by omega)
  · rw [if_pos hab]
    refine Or.inr ⟨hab, 0, ?_, by simp, fun j hj => absurd hj (Nat.not_lt_zero j)⟩
    simp only [List.length_cons]
    omega

theorem isFND_nilCons (b : Int) (ys : List Int) (d : Int)
    (hrec : isFirstNonzeroDiff [] ys d) :
    isFirstNonzeroDiff [] (b :: ys) (if -b ≠ 0 then -b else d) := by
  rcases eq_or_ne (-b) 0 with hb | hb
  · rw [if_neg (by simp [hb])]
    rcases hrec with ⟨hd0, hall⟩ | ⟨hne, i, hi, hdi, hprev⟩
    · refine Or.inl ⟨hd0, fun i hi => ?_⟩
      cases i with
      | zero => simpa using (show (0 : Int) = b by omega)
      | succ j =>
          simp only [List.getD_cons_succ, List.getD_nil]
          have := hall j (by simp at hi ⊢; omega)
          simpa using this
    · refine Or.inr ⟨hne, i + 1, ?_, by simpa using hdi, fun j hj => ?_⟩
      · simp at hi ⊢
        omega
      · cases j with
        | zero => simpa using (show (0 : Int) = b by omega)
        | succ k =>
            simp only [List.getD_cons_succ, List.getD_nil]
            have := hprev k (by omega)
            simpa using this
  · rw [if_pos hb]
    refine Or.inr ⟨hb, 0, ?_, by simp, fun j hj => absurd hj (Nat.not_lt_zero j)⟩
    simp

theorem isFND_consNil (a : Int) (xs : List Int) (d : Int)
    (hrec : isFirstNonzeroDiff xs [] d) :
    isFirstNonzeroDiff (a :: xs) [] (if a ≠ 0 then a else d) := by
  rcases eq_or_ne a 0 with ha | ha
  · rw [if_neg (by simp [ha])]
    rcases hrec with ⟨hd0, hall⟩ | ⟨hne, i, hi, hdi, hprev⟩
    · refine Or.inl ⟨hd0, fun i hi => ?_⟩
      cases i with
      | zero => simpa using ha
      | succ j =>
          simp only [List.getD_cons_succ, List.getD_nil]
          have := hall j (by simp at hi ⊢; omega)
          simpa using this
    · refine Or.inr ⟨hne, i + 1, ?_, by simpa using hdi, fun j hj => ?_⟩
      · simp at hi ⊢
        omega
      · cases j with
        | zero => simpa using ha
        | succ k =>
            simp only [List.getD_cons_succ, List.getD_nil]
            have := hprev k (by omega)
            simpa using this
  · rw [if_pos ha]
    refine Or.inr ⟨ha, 0, ?_, by simp, fun j hj => absurd hj (Nat.not_lt_zero j)⟩
    simp

theorem firstDiffNil_spec (ys : List Int) :
    isFirstNonzeroDiff [] ys (firstDiffNil ys) := by
  induction ys with
  | nil => exact Or.inl ⟨rfl, fun i hi => absurd hi (by simp)⟩
  | cons b ys ih => exact isFND_nilCons b ys _ ih

theorem firstDiff_spec (xs : List Int) :
    ∀ ys, isFirstNonzeroDiff xs ys (firstDiff xs ys) := by
  induction xs with
  | nil => exact fun ys => firstDiffNil_spec ys
  | cons a xs ih =>
      intro ys
      cases ys with
      | nil => exact isFND_consNil a xs _ (ih [])
      | cons b ys => exact isFND_cons a b xs ys _ (ih ys)

/-- Document carrying a given version string (other fields inert). -/
def verDoc (v : String) : Document :=
  { ID := v, Title := v, Contributors := [], Version := .str v
    Attachments := [], CreatedAt := 0, UpdatedAt := 0 }

/-- C5: when both operands' string representations contain a `'.'`, the
comparator's value is the dotted components' first nonzero difference
(missing trailing components as 0, per `isFirstNonzeroDiff`); otherwise it
is `Number(a) - Number(b)`.  Sorting `["1.0.0","2.5.1","1.2.0"]` by
version ascending yields `["1.0.0","1.2.0","2.5.1"]`, and `desc` negates
the comparator's result. -/
theorem c5_compareVersions :
    (∀ a b : VersionVal,
        hasDot a.toJSString = true → hasDot b.toJSString = true →
        compareVersions a b
            = some ((firstDiff (verParts a.toJSString) (verParts b.toJSString) : Int) : ℚ)
          ∧ isFirstNonzeroDiff (verParts a.toJSString) (verParts b.toJSString)
              (firstDiff (verParts a.toJSString) (verParts b.toJSString)))
  ∧ (∀ a b : VersionVal,
        ¬(hasDot a.toJSString = true ∧ hasDot b.toJSString = true) →
        compareVersions a b = jsSub a.toJSNumber b.toJSNumber)
  ∧ (sortDocuments .Version .asc [verDoc "1.0.0", verDoc "2.5.1", verDoc "1.2.0"]).map
        Document.Version = [.str "1.0.0", .str "1.2.0", .str "2.5.1"]
  ∧ (∀ (f : SortField) (a b : Document),
        effComparison f .desc a b = (effComparison f .asc a b).map Neg.neg) := by
  refine ⟨fun a b ha hb => ⟨?_, firstDiff_spec _ _⟩, fun a b h => ?_, by decide,
    fun f a b => rfl⟩
  · simp [compareVersions, ha, hb]
  · have hc : ¬((hasDot a.toJSString && hasDot b.toJSString) = true) := by
      simpa [Bool.and_eq_true] using h
    simp [compareVersions, hc]

/-- Witness for C5 at concrete versions: `"1.2.0"` versus `"1.10.0"` on
the dotted path (first nonzero difference `2 - 10 = -8`), and integer `2`
versus `"1.0.0"` on the fallback path (`Number("1.0.0")` is `NaN`). -/
theorem c5_compareVersions_witness :
    compareVersions (.str "1.2.0") (.str "1.10.0") = some (-8 : ℚ)
  ∧ compareVersions (.num 2) (.str "1.0.0") = none := by
  have h1 := (c5_compareVersions.1 (.str "1.2.0") (.str "1.10.0")
    (by decide) (by decide)).1
  have h2 := c5_compareVersions.2.1 (.num 2) (.str "1.0.0") (by decide)
  refine ⟨?_, ?_⟩
  · rw [h1]
    decide
  · rw [h2]
    decide

/-! ## C7 — inbound frame handling -/

theorem onMessages_eq (frames : List String) (s : WS.Svc) :
    WS.onMessages s frames
      = (s, frames.map (fun f =>
          match WS.decodeFrame f with
          | some n => WS.Act.scheduledForward n
          | none => WS.Act.loggedParseError)) := by
  induction frames generalizing s with
  | nil => rfl
  | cons f fs ih =>
      cases hdec : WS.decodeFrame f with
      | none => simp [WS.onMessages, WS.onMessage, hdec, ih]
      | some n => simp [WS.onMessages, WS.onMessage, hdec, ih]

/-- C7: delivering any sequence of inbound frames leaves every service
field (socket reference, retry counter, reconnect timer) unchanged; the
notifications scheduled for the caller-supplied handler are exactly the
successfully decoded frames — one forward per decoded message, in arrival
order; a frame failing to decode produces only a log entry and is
dropped with no other action. -/
theorem c7_frame_handling :
    (∀ (s : WS.Svc) (frames : List String),
        (WS.onMessages s frames).1 = s
      ∧ WS.forwardsOf (WS.onMessages s frames).2 = frames.filterMap WS.decodeFrame)
  ∧ (∀ (s : WS.Svc) (f : String), WS.decodeFrame f = none →
        WS.onMessage s f = (s, [.loggedParseError]))
  ∧ (∀ (s : WS.Svc) (f : String) (n : SocketsNotification), WS.decodeFrame f = some n →
        WS.onMessage s f = (s, [.scheduledForward n])) := by
  refine ⟨fun s frames => ⟨?_, ?_⟩, fun s f h => ?_, fun s f n h => ?_⟩
  · rw [onMessages_eq]
  · rw [onMessages_eq]
    simp only [WS.forwardsOf, List.filterMap_map]
    congr 1
    funext f
    simp only [Function.comp_apply]
    cases hdec : WS.decodeFrame f <;> simp [hdec]
  · simp [WS.onMessage, h]
  · simp [WS.onMessage, h]

/-- Witness for C7: a malformed frame is logged and dropped with the
service state intact; a well-formed frame is scheduled for forwarding;
over a two-frame arrival the forwards are exactly the decoded frames in
order. -/
theorem c7_frame_handling_witness :
    WS.onMessage WS.svcInit "not json" = (WS.svcInit, [.loggedParseError])
  ∧ WS.onMessage WS.svcInit "t|u1|alice|d1|Doc"
      = (WS.svcInit, [.scheduledForward ⟨"t", "u1", "alice", "d1", "Doc"⟩])
  ∧ WS.forwardsOf (WS.onMessages WS.svcInit ["t|u1|alice|d1|Doc", "not json"]).2
      = [⟨"t", "u1", "alice", "d1", "Doc"⟩] := by
  refine ⟨?_, ?_, ?_⟩
  · exact c7_frame_handling.2.1 WS.svcInit "not json" (by decide)
  · exact c7_frame_handling.2.2 WS.svcInit "t|u1|alice|d1|Doc"
      ⟨"t", "u1", "alice", "d1", "Doc"⟩ (by decide)
  · have h := (c7_frame_handling.1 WS.svcInit ["t|u1|alice|d1|Doc", "not json"]).2
    rw [h]
    decide

/-! ## C8 — unconditional setter notification, subscription handles -/

theorem runMuts_batches (cmds : List MutCmd) (st : StoreState) :
    (runMuts st cmds).2 = cmds.map (fun _ => st.listeners.map Effect.notified) := by
  induction cmds generalizing st with
  | nil => rfl
  | cons c cs ih =>
      cases c <;>
        simp [runMuts, applyMut, setSortField, setSortOrder, setViewMode, notifyEffects, ih]

/-- C8: each of `setSortField`/`setSortOrder`/`setViewMode` writes its
field unconditionally (no value-equality short-circuit — the equations
hold whatever the old value was, including equal new values) and emits one
synchronous notification to each currently subscribed listener, in
subscription order; a run of N mutating calls yields exactly N batches,
each covering the (unchanged) listener list; `subscribe` appends a new
listener; the returned handle removes exactly that listener. -/
theorem c8_setters_and_subscription :
    (∀ (st : StoreState) (f : SortField),
        setSortField st f = ({ st with sortField := f }, st.listeners.map Effect.notified))
  ∧ (∀ (st : StoreState) (o : SortOrder),
        setSortOrder st o = ({ st with sortOrder := o }, st.listeners.map Effect.notified))
  ∧ (∀ (st : StoreState) (m : ViewMode),
        setViewMode st m = ({ st with viewMode := m }, st.listeners.map Effect.notified))
  ∧ (∀ (st : StoreState) (cmds : List MutCmd),
        ((runMuts st cmds).2).length = cmds.length
      ∧ ∀ b ∈ (runMuts st cmds).2, b = st.listeners.map Effect.notified)
  ∧ (∀ (st : StoreState) (l : Nat), l ∉ st.listeners →
        (subscribe st l).listeners = st.listeners ++ [l])
  ∧ (∀ (st : StoreState) (l : Nat),
        (unsubscribe l st).listeners = st.listeners.erase l)
  ∧ (∀ (st : StoreState) (l lp : Nat), st.listeners.Nodup →
        (lp ∈ (unsubscribe l st).listeners ↔ lp ∈ st.listeners ∧ lp ≠ l)) := by
  refine ⟨fun st f => rfl, fun st o => rfl, fun st m => rfl, fun st cmds => ⟨?_, ?_⟩,
    fun st l hl => ?_, fun st l => rfl, fun st l lp hnd => ?_⟩
  · rw [runMuts_batches]
    simp
  · intro b hb
    rw [runMuts_batches] at hb
    obtain ⟨c, _, hfb⟩ := List.mem_map.mp hb
    exact hfb.symm
  · simp [subscribe, hl]
  · show lp ∈ st.listeners.erase l ↔ _
    rw [hnd.mem_erase_iff]
    exact ⟨fun h => ⟨h.2, h.1⟩, fun h => ⟨h.2, h.1⟩⟩

/-- A store with two subscribers, 1 then 2. -/
def c8St : StoreState := subscribe (subscribe (storeInit []) 1) 2

/-- Witness for C8 on a concrete store with subscribers `[1, 2]`: two
mutating calls give two notification batches, each `[1, 2]` in
subscription order; subscribing fresh listener 3 appends; unsubscribing 1
erases exactly 1. -/
theorem c8_setters_and_subscription_witness :
    ((runMuts c8St [MutCmd.field .Title, MutCmd.order .asc]).2).length = 2
  ∧ (∀ b ∈ (runMuts c8St [MutCmd.field .Title, MutCmd.order .asc]).2,
        b = [Effect.notified 1, Effect.notified 2])
  ∧ (subscribe c8St 3).listeners = [1, 2, 3]
  ∧ (unsubscribe 1 c8St).listeners = [2]
  ∧ (2 ∈ (unsubscribe 1 c8St).listeners ↔ 2 ∈ c8St.listeners ∧ 2 ≠ 1) := by
  refine ⟨?_, ?_, ?_, ?_, ?_⟩
  · have h := (c8_setters_and_subscription.2.2.2.1 c8St
      [MutCmd.field .Title, MutCmd.order .asc]).1
    simpa using h
  · intro b hb
    have h := (c8_setters_and_subscription.2.2.2.1 c8St
      [MutCmd.field .Title, MutCmd.order .asc]).2 b hb
    rw [h]
    decide
  · have h := c8_setters_and_subscription.2.2.2.2.1 c8St 3 (by decide)
    rw [h]
    decide
  · have h := c8_setters_and_subscription.2.2.2.2.2.1 c8St 1
    rw [h]
    decide
  · exact c8_setters_and_subscription.2.2.2.2.2.2 c8St 1 2 (by decide)

/-! ## C10 — initial fetch only populates an empty store -/

theorem foldl_addDocument_documents (docs : List Document) :
    ∀ (st : StoreState) (acc : List Effect),
      (∀ d ∈ docs, st.documentMap.contains d.ID = false) →
      (docs.map Document.ID).Nodup →
      ((docs.foldl
          (fun acc2 d => ((addDocument acc2.1 d).1, acc2.2 ++ (addDocument acc2.1 d).2))
          (st, acc)).1).documents
        = st.documents ++ docs := by
  induction docs with
  | nil => intro st acc _ _; simp
  | cons d ds ih =>
      intro st acc hfresh hnodup
      have hd : st.documentMap.contains d.ID = false := hfresh d (by simp)
      have hdm : d.ID ∉ st.documentMap := by simpa using hd
      have hst2 : (addDocument st d).1
          = { st with
              documents := st.documents ++ [d],
              documentMap := st.documentMap ++ [d.ID] } := by
        simp [addDocument, hdm]
      simp only [List.map_cons, List.nodup_cons] at hnodup
      have hfresh2 : ∀ d2 ∈ ds,
          ((addDocument st d).1).documentMap.contains d2.ID = false := by
        intro d2 hd2
        have h1 : d2.ID ∉ st.documentMap := by
          simpa using hfresh d2 (by simp [hd2])
        have h2 : d2.ID ≠ d.ID := by
          intro he
          exact hnodup.1 (he ▸ List.mem_map_of_mem Document.ID hd2)
        rw [hst2]
        simp [h1, h2]
      have hrec := ih (addDocument st d).1 (acc ++ (addDocument st d).2) hfresh2 hnodup.2
      simp only [List.foldl_cons]
      rw [hrec, hst2]
      simp

/-- C10: when the initial bulk fetch resolves, the handler tests
`getDocuments().length === 0`.  If the store already holds at least one
document, every fetched record is discarded and the store is completely
unchanged (no persistence, no notification).  If the store is empty (the
freshly constructed empty-snapshot state), each fetched record is passed
to `addDocument` in order, so with pairwise-distinct IDs the collection
becomes exactly the fetched sequence. -/
theorem c10_initial_fetch_gate :
    (∀ (st : StoreState) (docs : List Document), st.documents ≠ [] →
        onFetchResolved st docs = (st, []))
  ∧ (∀ (st : StoreState) (docs : List Document),
        st.documents = [] → st.documentMap = [] → (docs.map Document.ID).Nodup →
        ((onFetchResolved st docs).1).documents = docs) := by
  constructor
  · intro st docs hne
    have hlen : ¬((getDocuments st).length = 0) := by
      rw [getDocuments_length]
      simpa using hne
    simp [onFetchResolved, hlen]
  · intro st docs h0 hm hnd
    have hlen : (getDocuments st).length = 0 := by
      rw [getDocuments_length, h0]
      rfl
    have hfresh : ∀ d ∈ docs, st.documentMap.contains d.ID = false := by
      intro d _
      rw [hm]
      rfl
    have h := foldl_addDocument_documents docs st [] hfresh hnd
    simp only [onFetchResolved, hlen, if_pos]
    rw [h, h0]
    rfl

/-- Witness for C10: a store holding one document ignores a fetched batch
entirely; the empty store absorbs a two-document batch verbatim. -/
theorem c10_initial_fetch_gate_witness :
    onFetchResolved c1Store [c2Doc] = (c1Store, [])
  ∧ ((onFetchResolved (storeInit []) [c1Hydrated, verDoc "2.0.0"]).1).documents
      = [c1Hydrated, verDoc "2.0.0"] := by
  refine ⟨?_, ?_⟩
  · exact c10_initial_fetch_gate.1 c1Store [c2Doc] (by decide)
  · exact c10_initial_fetch_gate.2 (storeInit []) [c1Hydrated, verDoc "2.0.0"]
      rfl rfl (by decide)

/-! ## C4 — bounded retry budget -/

/-- Invariant along automatic-event runs: the automatic connection
attempts performed so far (`c`), plus one for a still-pending timer, never
exceed the retry counter, which never exceeds the budget; no close
dispatch is owed (none ever arises without a `disconnect()` call). -/
def wsInv (s : WS.Svc) (c : Nat) : Prop :=
  c + (if s.timer.isSome then 1 else 0) ≤ s.reconnectAttempts
  ∧ s.reconnectAttempts ≤ 5
  ∧ s.owedClose = 0

theorem wsInv_step (s : WS.Svc) (c : Nat) (e : WS.Ev) (he : e.isAuto = true)
    (h : wsInv s c) :
    wsInv (WS.step s e).1 (c + WS.countConn (WS.step s e).2) := by
  obtain ⟨h1, h2, h3⟩ := h
  cases e with
  | userConnect => exact absurd he (by decide)
  | userDisconnect => exact absurd he (by decide)
  | sockOpen => exact absurd he (by decide)
  | sockClose =>
      cases hws : s.ws with
      | none => exact ⟨by simpa [WS.step, hws, WS.countConn] using h1, by simpa [WS.step, hws] using h2, by simpa [WS.step, hws] using h3⟩
      | some ss =>
          cases ss <;>
            [skip; skip;
              exact ⟨by simpa [WS.step, hws, WS.countConn] using h1,
                by simpa [WS.step, hws] using h2, by simpa [WS.step, hws] using h3⟩] <;>
          · by_cases hatt : s.reconnectAttempts < 5
            · refine ⟨?_, ?_, ?_⟩ <;>
                simp [WS.step, hws, WS.attemptReconnect, WS.maxReconnectAttempts, hatt,
                  WS.countConn, h3] <;>
                omega
            · refine ⟨?_, ?_, ?_⟩ <;>
                simp [WS.step, hws, WS.attemptReconnect, WS.maxReconnectAttempts, hatt,
                  WS.countConn, h3] <;>
                omega
  | closeDispatch =>
      refine ⟨?_, ?_, ?_⟩ <;> simp [WS.step, h3, WS.countConn] <;> omega
  | timerFire =>
      cases ht : s.timer with
      | none =>
          exact ⟨by simpa [WS.step, ht, WS.countConn] using h1,
            by simpa [WS.step, ht] using h2, by simpa [WS.step, ht] using h3⟩
      | some t =>
          refine ⟨?_, ?_, ?_⟩ <;>
            simp [WS.step, ht, WS.connectFn, WS.countConn] <;>
            simp [ht] at h1 <;>
            omega

theorem countConn_append (a b : List WS.Act) :
    WS.countConn (a ++ b) = WS.countConn a + WS.countConn b := by
  simp [WS.countConn, List.filter_append]

theorem wsInv_run (evs : List WS.Ev) :
    ∀ (s : WS.Svc) (c : Nat), (∀ e ∈ evs, e.isAuto = true) → wsInv s c →
      wsInv (WS.run s evs).1 (c + WS.countConn (WS.run s evs).2) := by
  induction evs with
  | nil =>
      intro s c _ h
      simpa [WS.run, WS.countConn] using h
  | cons e es ih =>
      intro s c hauto h
      have hstep := wsInv_step s c e (hauto e (by simp)) h
      have hrec := ih (WS.step s e).1 (c + WS.countConn (WS.step s e).2)
        (fun e2 he2 => hauto e2 (by simp [he2])) hstep
      simpa [WS.run, countConn_append, Nat.add_assoc] using hrec

/-- C4: (i) a close event on a live (connecting or open) channel
increments the retry counter and stores a fresh 3000 ms reconnect timer
exactly when the counter is below the budget 5, and does neither at the
budget; (ii) starting from a fresh connection, any sequence of automatic
events (close events, owed close dispatches, timer expiries — no
successful open, no explicit call) produces at most 5 connection attempts,
so a 6th automatic reconnect never occurs; (iii) in the abandoned state
every automatic event is a no-op: no further automatic activity without an
explicit call. -/
theorem c4_retry_budget :
    (∀ s : WS.Svc, s.ws = some .connecting ∨ s.ws = some .opened →
        (s.reconnectAttempts < 5 →
          WS.step s .sockClose
            = ({ s with
                  ws := some .closed,
                  reconnectAttempts := s.reconnectAttempts + 1,
                  timer := some 3000 }, []))
      ∧ (s.reconnectAttempts = 5 →
          WS.step s .sockClose = ({ s with ws := some .closed }, [])))
  ∧ (∀ evs : List WS.Ev, (∀ e ∈ evs, e.isAuto = true) →
        WS.countConn (WS.run WS.freshConnected evs).2 ≤ 5)
  ∧ (∀ e : WS.Ev, e.isAuto = true → WS.step WS.exhausted e = (WS.exhausted, [])) := by
  refine ⟨fun s hws => ⟨fun hlt => ?_, fun heq => ?_⟩, fun evs hauto => ?_, fun e he => ?_⟩
  · rcases hws with hws | hws <;>
      simp [WS.step, hws, WS.attemptReconnect, WS.maxReconnectAttempts, hlt,
        WS.reconnectDelay]
  · rcases hws with hws | hws <;>
      simp [WS.step, hws, WS.attemptReconnect, WS.maxReconnectAttempts, heq]
  · have hinit : wsInv WS.freshConnected 0 := by
      refine ⟨?_, ?_, ?_⟩ <;> simp [WS.freshConnected]
    have h := wsInv_run evs WS.freshConnected 0 hauto hinit
    obtain ⟨h1, h2, _⟩ := h
    omega
  · cases e with
    | userConnect => exact absurd he (by decide)
    | userDisconnect => exact absurd he (by decide)
    | sockOpen => exact absurd he (by decide)
    | sockClose => rfl
    | closeDispatch => rfl
    | timerFire => rfl

/-- Witness for C4: the first close on a fresh connection moves the
counter to 1 and stores a 3000 ms timer; a concrete automatic run stays
within the budget; a timer expiry in the abandoned state does nothing. -/
theorem c4_retry_budget_witness :
    WS.step WS.freshConnected .sockClose
      = ({ ws := some .closed, reconnectAttempts := 1, timer := some 3000,
            owedClose := 0 }, [])
  ∧ WS.countConn (WS.run WS.freshConnected [.sockClose, .timerFire, .sockClose]).2 ≤ 5
  ∧ WS.step WS.exhausted .timerFire = (WS.exhausted, []) := by
  refine ⟨?_, ?_, ?_⟩
  · have h := (c4_retry_budget.1 WS.freshConnected (Or.inl rfl)).1 (by decide)
    simpa [WS.freshConnected] using h
  · exact c4_retry_budget.2.1 [.sockClose, .timerFire, .sockClose] (by decide)
  · exact c4_retry_budget.2.2 .timerFire (by decide)
